import Mathlib

/-! Shallow embedding of the voice transcription pipeline
(`transcribeSummarize.js`, `summarize_focus.js`): the adaptive audio
splitter, the transcription client adapter, the summarizers, the
temp-directory cleanup, and the main pipeline orchestration.

Time quantities (offsets, durations, chunk lengths, in seconds) are
modelled as integers: the source manipulates JS numbers, but every claim
under scrutiny concerns integral inputs, and the splitter's own
`Math.floor` shrink keeps chunk lengths integral.  Byte sizes are
naturals.  The external ffmpeg slicing primitive is an oracle
`slice : start → duration → Option byteSize` (`none` models an
ffmpeg/stat error for that attempt, `some n` a produced file of `n`
bytes).  Loops are embedded with an explicit fuel parameter; a `none`
result of a fueled function means only that the fuel ran out (an
artifact of the embedding), while the source's own failure value
(`return { chunks: [] }`) is modelled as `some []`. -/

/-- `MAX_FILE_SIZE_MB` (transcribeSummarize.js line 76). -/
def MAX_FILE_SIZE_MB : ℕ := 25

/-- `MAX_FILE_SIZE_BYTES = (MAX_FILE_SIZE_MB - 1) * 1024 * 1024` (line 77). -/
def MAX_FILE_SIZE_BYTES : ℕ := (MAX_FILE_SIZE_MB - 1) * 1024 * 1024

/-- `CHUNK_LENGTH_SECONDS = 10 * 60` (line 75). -/
def CHUNK_LENGTH_SECONDS : ℤ := 10 * 60

/-- `safetyFactor = 0.9` (line 144), as the exact rational 9/10. -/
def safetyFactor : ℚ := 9 / 10

/-- JS `Math.min` on two numbers. -/
def mathMin (a b : ℤ) : ℤ := if a ≤ b then a else b

/-- `Math.floor(currentChunkLength * safetyFactor)` (line 201) on an
integral length: integer division `9 * len / 10`.  The bridging lemma
`shrinkLength_eq_floor` below proves this equals the rational floor
`⌊len * safetyFactor⌋` for every integer `len`. -/
def shrinkLength (len : ℤ) : ℤ := 9 * len / 10

/-- One accepted chunk of `splitAudio`: the sequence index `i` encoded in the
file name `temp_chunk_i.ext` (line 162), the time span `[startOffset,
endOffset)` passed to ffmpeg (lines 154-155, 168-169), and the byte size of
the produced file (line 189). -/
structure ChunkArtifact where
  idx : ℕ
  startOffset : ℤ
  endOffset : ℤ
  byteSize : ℕ
deriving DecidableEq, Repr

/-- Outcome of the inner size-adjustment loop of `splitAudio`
(lines 153-237): either the attempt chain ends in one of the abort paths
(ffmpeg error, non-positive span, length floor, or loop-guard exit without
export), or a chunk is accepted.  `accepted` records the end offset, the
byte size, and the value of `currentChunkLength` in force at acceptance. -/
inductive InnerOut where
  | aborted : InnerOut
  | accepted : ℤ → ℕ → ℤ → InnerOut
deriving DecidableEq, Repr

/-- The inner `while (!chunkExported && currentChunkLength > 1)` loop of
`splitAudio` (lines 153-237) at a fixed `startOffset`:
compute `endOffset = min(startOffset + currentChunkLength, totalDuration)`
(line 154); a non-positive span breaks out and the outer logic aborts
(lines 157-160, 247-251); an ffmpeg/stat error (`slice … = none`) sets
`chunkFailed` and aborts (lines 177-184, 211-215, 218-230, 240-244);
a produced file under `MAX_FILE_SIZE_BYTES` is accepted (lines 193-197);
an oversized file shrinks `currentChunkLength` to
`Math.floor(currentChunkLength * safetyFactor)` (line 201) and either
aborts when the new length is `<= 1` (lines 202-205) or retries at the
same `startOffset` (lines 206-209). -/
def sliceAttempts (slice : ℤ → ℤ → Option ℕ) (total start : ℤ) :
    ℕ → ℤ → Option InnerOut
  | 0, _ => none
  | f + 1, len =>
    if 1 < len then
      if mathMin (start + len) total - start ≤ 0 then some .aborted
      else
        match slice start (mathMin (start + len) total - start) with
        | none => some .aborted
        | some size =>
          if size < MAX_FILE_SIZE_BYTES then
            some (.accepted (mathMin (start + len) total) size len)
          else
            if shrinkLength len ≤ 1 then some .aborted
            else sliceAttempts slice total start f (shrinkLength len)
    else some .aborted

/-- The outer `while (startOffset < totalDuration)` loop of `splitAudio`
(lines 146-254).  Each outer iteration re-initializes the inner loop's
length to `chunkLengthSeconds` (line 147: `let currentChunkLength =
chunkLengthSeconds;` is inside the outer loop body).  An accepted chunk is
appended (line 194), `startOffset` advances to its end offset (line 195)
and the chunk index increments (line 253); any inner abort makes the whole
split return the failure value `{ chunks: [] }` (lines 240-251), modelled
as `some []`. -/
def splitLoop (slice : ℤ → ℤ → Option ℕ) (total target : ℤ) :
    ℕ → ℤ → ℕ → List ChunkArtifact → Option (List ChunkArtifact)
  | 0, _, _, _ => none
  | f + 1, start, i, acc =>
    if start < total then
      match sliceAttempts slice total start (f + 1) target with
      | none => none
      | some .aborted => some []
      | some (.accepted e n _) =>
          splitLoop slice total target f e (i + 1) (acc ++ [⟨i, start, e, n⟩])
    else some acc

/-- `splitAudio(filePath, tempDir, chunkLengthSeconds)` (lines 124-257),
from a successful duration probe onward, as a function of the slicing
oracle, the probed `totalDuration`, and the target chunk length. -/
def splitAudioRun (slice : ℤ → ℤ → Option ℕ) (total target : ℤ) (fuel : ℕ) :
    Option (List ChunkArtifact) :=
  splitLoop slice total target fuel 0 0 []

/-- Variant of the outer splitter loop written from the spec's words
("a shrink persists for subsequent chunks … not reset to target"): the
inner loop of each new chunk starts at the previous chunk's final accepted
length instead of `chunkLengthSeconds`.  Used only to compare the spec's
claimed behavior with the source's. -/
def splitLoopPersist (slice : ℤ → ℤ → Option ℕ) (total : ℤ) :
    ℕ → ℤ → ℤ → ℕ → List ChunkArtifact → Option (List ChunkArtifact)
  | 0, _, _, _, _ => none
  | f + 1, start, len, i, acc =>
    if start < total then
      match sliceAttempts slice total start (f + 1) len with
      | none => none
      | some .aborted => some []
      | some (.accepted e n l) =>
          splitLoopPersist slice total f e l (i + 1) (acc ++ [⟨i, start, e, n⟩])
    else some acc

/-- Entry point of the persisting variant: the first chunk starts at the
target length. -/
def splitAudioSpecPersist (slice : ℤ → ℤ → Option ℕ) (total target : ℤ)
    (fuel : ℕ) : Option (List ChunkArtifact) :=
  splitLoopPersist slice total fuel 0 target 0 []

/-- `tilesB cs a b k` holds when the chunk list `cs` exactly tiles the
interval `[a, b)` with gap-free, overlap-free, left-to-right spans and
consecutive sequence indices starting at `k`. -/
def tilesB : List ChunkArtifact → ℤ → ℤ → ℕ → Bool
  | [], a, b, _ => a == b
  | c :: rest, a, b, k =>
      c.startOffset == a && decide (a < c.endOffset) && decide (c.endOffset ≤ b)
        && c.idx == k && tilesB rest c.endOffset b (k + 1)

/-- The JS whitespace characters relevant to this code base (space, tab,
newline, carriage return). -/
def jsWhitespace (c : Char) : Bool :=
  c == ' ' || c == '\t' || c == '\n' || c == '\r'

/-- Model of JS `String.prototype.trim`: drop whitespace from both ends. -/
def jsTrim (s : String) : String :=
  ⟨((s.data.dropWhile jsWhitespace).reverse.dropWhile jsWhitespace).reverse⟩

/-- Model of JS `String.prototype.startsWith`. -/
def jsStartsWith (s pre : String) : Bool :=
  pre.data.isPrefixOf s.data

/-- The files of the run's scratch directory (the `fs.existsSync` /
`fs.readdirSync` view used by `cleanupTempDir`, lines 374-399).  Paths are
modelled as canonical strings, so `path.resolve`/`path.join` are
identities. -/
structure TempDirState where
  dirExists : Bool
  files : List String
deriving DecidableEq, Repr

/-- Observable outcome of `cleanupTempDir`: the directory state it leaves
behind, the `cleanedCount` and `errorCount` counters (lines 367-368), and
the unexpected files it warned about and skipped (line 394). -/
structure CleanupOut where
  state : TempDirState
  cleaned : ℕ
  errors : ℕ
  warnings : List String
deriving DecidableEq, Repr

/-- `cleanupTempDir(tempDir, generatedChunks)` (lines 365-408).  `dirName`
is `path.basename(tempDir)`.  If the directory is absent, nothing happens
(lines 400-402).  If its basename does not start with `TEMP_DIR_PREFIX`
(`'audio_chunks_'`, line 78), cleanup aborts without touching anything
(lines 376-379).  Otherwise every directory file that occurs in
`generatedChunks` is deleted and every other file is warned about and
skipped (lines 381-396; individual `unlinkSync` calls are assumed to
succeed).  Then `fs.rmdirSync` removes the directory when it is empty; on
a non-empty directory it throws, the error is caught and counted
(lines 398, 403-406). -/
def cleanupTempDir (dirName : String) (st : TempDirState)
    (generatedChunks : List String) : CleanupOut :=
  if st.dirExists then
    if !(jsStartsWith dirName "audio_chunks_") then ⟨st, 0, 0, []⟩
    else
      let kept := st.files.filter (fun f => !(generatedChunks.contains f))
      let deleted := st.files.filter (fun f => generatedChunks.contains f)
      if kept.isEmpty then ⟨⟨false, []⟩, deleted.length, 0, kept⟩
      else ⟨⟨true, kept⟩, deleted.length, 1, kept⟩
  else ⟨st, 0, 0, []⟩

/-- The terminal AssemblyAI transcript object observed by
`transcribeChunk`: its `status` string and its `text` (lines 280-293). -/
structure AAIResponse where
  status : String
  text : String
deriving DecidableEq, Repr

/-- `transcribeChunk(chunkPath)` (lines 265-301) as a function of the
backend round-trip outcome: `Except.error` models a thrown transport
fault (network, auth, malformed response), caught by the
`try`/`catch` and turned into `null` (lines 295-300); a terminal
response with status `'error'` returns `null` (lines 280-283); any other
non-`'completed'` status returns `null` (lines 285-290); `'completed'`
returns the recognized text (line 293).  Totality of this function is the
model of "never propagates an uncaught fault". -/
def transcribeChunk (resp : Except String AAIResponse) : Option String :=
  match resp with
  | .error _ => none
  | .ok t =>
    if t.status == "error" then none
    else if !(t.status == "completed") then none
    else some t.text

/-- TranscriptFragment status from the spec's data model (§3, §4.4). -/
inductive FragStatus where
  | success : FragStatus
  | failed : FragStatus
  | incomplete : FragStatus
deriving DecidableEq, Repr

/-- Written from the spec's words (§4.4), for comparison with the
source's `transcribeChunk`: "`completed` → fragment with status success
and populated text; `error` → status failed, text empty; any other
terminal-but-unexpected state → status incomplete, text empty; transport
failures are caught locally and converted to status failed". -/
def specTranscribeFragment (resp : Except String AAIResponse) :
    FragStatus × String :=
  match resp with
  | .error _ => (.failed, "")
  | .ok t =>
    if t.status == "completed" then (.success, t.text)
    else if t.status == "error" then (.failed, "")
    else (.incomplete, "")

/-- One block of an Anthropic messages response (`msg.content`),
as read by lines 330-334. -/
structure ContentBlock where
  type : String
  text : String
deriving DecidableEq, Repr

/-- An Anthropic messages response as read by `summarizeText` /
`summarizeWithFocus`: its `content` array (a missing or null `content`
collapses to the empty list, which the source treats identically,
lines 330, 344-348). -/
structure MsgResponse where
  content : List ContentBlock
deriving DecidableEq, Repr

/-- `summarizeText(text)` (transcribeSummarize.js lines 308-358) as a
function of the backend round-trip outcome `api`: empty or
whitespace-only input returns `null` (lines 309-312); a thrown API error
is caught and returns `null` (lines 349-357); otherwise the response's
text blocks are joined with `'\n'` (lines 330-334); a non-empty join is
returned (lines 336-338), an empty join or an empty `content` array
yields the placeholder strings of lines 342 and 347. -/
def summarizeText (text : String) (api : Except String MsgResponse) :
    Option String :=
  if jsTrim text == "" then none
  else
    match api with
    | .error _ => none
    | .ok msg =>
      if 0 < msg.content.length then
        if String.intercalate "\n"
            ((msg.content.filter (fun b => b.type == "text")).map
              (fun b => b.text)) == "" then
          some "Could not extract summary. No text blocks found."
        else
          some (String.intercalate "\n"
            ((msg.content.filter (fun b => b.type == "text")).map
              (fun b => b.text)))
      else some "Could not extract summary. No content returned."

/-- `summarizeWithFocus(text, customPrompt)` (summarize_focus.js
lines 43-95).  `customPrompt` only selects the prompt sent to the
backend (line 50); the response handling (lines 68-94) is
character-for-character the body of `summarizeText`. -/
def summarizeWithFocus (text : String) (_customPrompt : Option String)
    (api : Except String MsgResponse) : Option String :=
  if jsTrim text == "" then none
  else
    match api with
    | .error _ => none
    | .ok msg =>
      if 0 < msg.content.length then
        if String.intercalate "\n"
            ((msg.content.filter (fun b => b.type == "text")).map
              (fun b => b.text)) == "" then
          some "Could not extract summary. No text blocks found."
        else
          some (String.intercalate "\n"
            ((msg.content.filter (fun b => b.type == "text")).map
              (fun b => b.text)))
      else some "Could not extract summary. No content returned."

/-- One step of the transcription loop of `main` (lines 457-463):
append `transcriptPart + "\n\n"` and count the success for a non-null
part; skip a null part. -/
def transcriptionStep (acc : String × ℕ) (p : Option String) : String × ℕ :=
  match p with
  | some t => (acc.1 ++ t ++ "\n\n", acc.2 + 1)
  | none => acc

/-- The transcription loop of `main` (lines 452-468): fold
`transcriptionStep` over the per-chunk `transcribeChunk` results in
chunk order, starting from the empty transcript and a zero success
count (lines 452-453). -/
def transcriptionFold (parts : List (Option String)) : String × ℕ :=
  parts.foldl transcriptionStep ("", 0)

/-- The options of `main` relevant to the modelled behavior
(lines 486, 524). -/
structure MainOptions where
  skipSummary : Bool
  keepTempFiles : Bool
deriving DecidableEq, Repr

/-- The value `main` returns on the non-throwing path (lines 511-514). -/
structure MainReturn where
  transcriptPath : Option String
  summaryPath : Option String
deriving DecidableEq, Repr

/-- Observable outcome of `main` from the transcription phase onward:
the contents written to the transcript and summary files (`none` when
the corresponding `writeFileSync` was not reached), whether the
summarizer was invoked, the success count and the failed count of the
log line 469, whether `cleanupTempDir` ran in the `finally` block, and
the returned value. -/
structure MainOutcome where
  transcriptContent : Option String
  summaryContent : Option String
  summarizeCalled : Bool
  successCount : ℕ
  failedCount : ℕ
  cleanupRan : Bool
  result : MainReturn
deriving DecidableEq, Repr

/-- `main(audioFilePath, options)` (lines 415-534) from a successful
split onward: `parts` are the per-chunk `transcribeChunk` results in
chunk order; `summarize` is the summarizer round-trip; file writes are
assumed to succeed and the scratch output directory to be fresh, so the
`fs.existsSync` probes of lines 512-513 hold exactly for the files this
run wrote.  The transcript is written iff the folded transcript trims
non-empty (lines 472-481); the summarizer runs iff additionally at least
one chunk succeeded and `skipSummary` is unset (lines 484-489); a truthy
summary is written (lines 491-497); cleanup runs in `finally` unless
`keepTempFiles` (lines 521-531). -/
def mainRun (parts : List (Option String)) (summarize : String → Option String)
    (opts : MainOptions) (transcriptFilename summaryFilename : String) :
    MainOutcome :=
  let ft := (transcriptionFold parts).1
  let succ := (transcriptionFold parts).2
  let hasText := !(jsTrim ft == "")
  let transcriptContent := if hasText then some ft else none
  let doSummarize := hasText && (succ != 0) && !opts.skipSummary
  let summaryContent :=
    if doSummarize then
      match summarize ft with
      | some s => if s == "" then none else some s
      | none => none
    else none
  { transcriptContent := transcriptContent
    summaryContent := summaryContent
    summarizeCalled := doSummarize
    successCount := succ
    failedCount := parts.length - succ
    cleanupRan := !opts.keepTempFiles
    result := ⟨transcriptContent.map (fun _ => transcriptFilename),
               summaryContent.map (fun _ => summaryFilename)⟩ }

/-- The concatenation, in list order, of the given texts, each followed
by the double line break of line 459. -/
def concatSep : List String → String
  | [] => ""
  | t :: rest => t ++ "\n\n" ++ concatSep rest

/-! ## Helper lemmas -/

/-- `shrinkLength` is exactly `Math.floor` of the exact product
`len * 0.9`. -/
theorem shrinkLength_eq_floor (len : ℤ) :
    shrinkLength len = ⌊(len : ℚ) * safetyFactor⌋ := by
  have h : (len : ℚ) * safetyFactor = ((9 * len : ℤ) : ℚ) / ((10 : ℕ) : ℚ) := by
    rw [safetyFactor]
    push_cast
    ring
  rw [shrinkLength, h, Rat.floor_intCast_div_natCast]
  norm_num

theorem transcriptionFold_go (parts : List (Option String)) :
    ∀ acc : String × ℕ,
      parts.foldl transcriptionStep acc =
        (acc.1 ++ concatSep (parts.filterMap id), acc.2 + (parts.filterMap id).length) := by
  induction parts with
  | nil => intro acc; simp [concatSep]
  | cons p rest ih =>
    intro acc
    cases p with
    | none => simp [transcriptionStep, ih]
    | some t =>
      simp only [List.foldl_cons, transcriptionStep, ih, List.filterMap_cons,
        id_eq, concatSep, List.length_cons, Prod.mk.injEq]
      constructor
      · simp [String.append_assoc]
      · omega

theorem transcriptionFold_all_none (parts : List (Option String))
    (h : ∀ p ∈ parts, p = none) : transcriptionFold parts = ("", 0) := by
  induction parts with
  | nil => rfl
  | cons p rest ih =>
    have hp : p = none := h p (List.mem_cons_self p rest)
    subst hp
    have := ih (fun q hq => h q (List.mem_cons_of_mem none hq))
    simpa [transcriptionFold, transcriptionStep] using this

theorem cleanup_absent_noop (d : String) (st : TempDirState)
    (known : List String) (h : st.dirExists = false) :
    cleanupTempDir d st known = ⟨st, 0, 0, []⟩ := by
  rw [cleanupTempDir, h]
  simp

theorem sliceAttempts_accepted_bounds
    (slice : ℤ → ℤ → Option ℕ) (total start : ℤ) :
    ∀ (f : ℕ) (len e : ℤ) (n : ℕ) (l : ℤ),
      sliceAttempts slice total start f len = some (.accepted e n l) →
      n < MAX_FILE_SIZE_BYTES ∧ start < e ∧ e ≤ total := by
  intro f
  induction f with
  | zero => intro len e n l h; simp [sliceAttempts] at h
  | succ f ih =>
    intro len e n l h
    rw [sliceAttempts] at h
    split at h
    · split at h
      · simp at h
      · split at h
        · simp at h
        · rename_i size hslice
          split at h
          · rename_i hsize
            simp only [Option.some.injEq, InnerOut.accepted.injEq] at h
            obtain ⟨he, hn, -⟩ := h
            subst he hn
            refine ⟨hsize, ?_, ?_⟩
            · rename_i hdur _
              rw [mathMin] at hdur ⊢
              split at hdur <;> split <;> omega
            · rw [mathMin]; split <;> omega
          · split at h
            · simp at h
            · exact ih _ _ _ _ h
    · simp at h

theorem splitLoop_size_invariant (slice : ℤ → ℤ → Option ℕ)
    (total target : ℤ) :
    ∀ (fuel : ℕ) (start : ℤ) (i : ℕ) (acc cs : List ChunkArtifact),
      splitLoop slice total target fuel start i acc = some cs →
      (∀ c ∈ acc, c.byteSize < MAX_FILE_SIZE_BYTES) →
      ∀ c ∈ cs, c.byteSize < MAX_FILE_SIZE_BYTES := by
  intro fuel
  induction fuel with
  | zero => intro start i acc cs h; simp [splitLoop] at h
  | succ f ih =>
    intro start i acc cs h hacc
    rw [splitLoop] at h
    split at h
    · split at h
      · simp at h
      · simp only [Option.some.injEq] at h
        subst h
        intro c hc
        simp at hc
      · rename_i e n l heq
        refine ih _ _ _ _ h ?_
        intro c hc
        rcases List.mem_append.mp hc with hc | hc
        · exact hacc c hc
        · have hb := (sliceAttempts_accepted_bounds slice total start _ _ _ _ _ heq).1
          simp at hc
          subst hc
          exact hb
    · simp only [Option.some.injEq] at h
      subst h
      exact hacc

/-! ## Claim theorems -/

/-- C5: the final transcript string equals the concatenation, in
ascending chunk sequence index (list order of the per-chunk results), of
the text of every successfully transcribed fragment, each followed by a
double line break; a failed fragment's slot is omitted, never replaced
by a placeholder.  The success count is the number of non-null
fragments. -/
theorem transcript_concat_of_successes (parts : List (Option String)) :
    (transcriptionFold parts).1 = concatSep (parts.filterMap id) ∧
    (transcriptionFold parts).2 = (parts.filterMap id).length := by
  rw [transcriptionFold, transcriptionFold_go]
  simp

/-- C9: `cleanupTempDir` is a total function (it never raises), calling
it when the directory is absent is a no-op that cleans nothing and
counts no error, and — when a first release removed the directory —
calling it a second time on the same handle is such a no-op. -/
theorem release_absent_dir_noop (d : String) (st : TempDirState)
    (known : List String) :
    (st.dirExists = false → cleanupTempDir d st known = ⟨st, 0, 0, []⟩) ∧
    ((cleanupTempDir d st known).state.dirExists = false →
      cleanupTempDir d (cleanupTempDir d st known).state known =
        ⟨(cleanupTempDir d st known).state, 0, 0, []⟩) := by
  exact ⟨cleanup_absent_noop d st known,
    fun h => cleanup_absent_noop d _ known h⟩

/-- C9 witness: a concrete second release after a first release removed
the directory, and a concrete release on an absent directory. -/
theorem release_absent_dir_witness :
    (cleanupTempDir "audio_chunks_a1" ⟨true, ["c0.mp3"]⟩ ["c0.mp3"]).state.dirExists = false ∧
    cleanupTempDir "audio_chunks_a1"
        (cleanupTempDir "audio_chunks_a1" ⟨true, ["c0.mp3"]⟩ ["c0.mp3"]).state ["c0.mp3"] =
      ⟨(cleanupTempDir "audio_chunks_a1" ⟨true, ["c0.mp3"]⟩ ["c0.mp3"]).state, 0, 0, []⟩ ∧
    cleanupTempDir "audio_chunks_a1" ⟨false, []⟩ ["c0.mp3"] = ⟨⟨false, []⟩, 0, 0, []⟩ := by
  refine ⟨by decide, (release_absent_dir_noop "audio_chunks_a1" ⟨true, ["c0.mp3"]⟩ ["c0.mp3"]).2 (by decide), (release_absent_dir_noop "audio_chunks_a1" ⟨false, []⟩ ["c0.mp3"]).1 rfl⟩

/-- C4: `cleanupTempDir` never deletes a file that is not in the
recorded artifact list: such a file is still present afterwards, and on
the normal path it is in the warned-and-skipped list. -/
theorem release_never_deletes_unknown (d : String) (st : TempDirState)
    (known : List String) (f : String)
    (hf : f ∈ st.files) (hunk : f ∉ known) :
    f ∈ (cleanupTempDir d st known).state.files ∧
    (st.dirExists = true → jsStartsWith d "audio_chunks_" = true →
      f ∈ (cleanupTempDir d st known).warnings) := by
  have hmem : f ∈ st.files.filter (fun g => !(known.contains g)) := by
    simp only [List.mem_filter]
    exact ⟨hf, by simpa using hunk⟩
  simp only [cleanupTempDir]
  split
  · split
    · rename_i hpre
      refine ⟨hf, fun _ hpre' => ?_⟩
      simp [hpre'] at hpre
    · split
      · rename_i hempty
        rw [List.isEmpty_iff] at hempty
        rw [hempty] at hmem
        simp at hmem
      · exact ⟨hmem, fun _ _ => hmem⟩
  · rename_i hex
    refine ⟨hf, fun hex' => ?_⟩
    rw [hex'] at hex
    simp at hex

/-- C4 witness: a file placed in the scratch directory by an external
actor survives release, is warned about, and the full release outcome on
that directory deletes only the recorded artifact. -/
theorem release_never_deletes_unknown_witness :
    "evil.txt" ∈ (["c0.mp3", "evil.txt"] : List String) ∧
    "evil.txt" ∉ (["c0.mp3"] : List String) ∧
    "evil.txt" ∈ (cleanupTempDir "audio_chunks_ab12" ⟨true, ["c0.mp3", "evil.txt"]⟩
      ["c0.mp3"]).state.files ∧
    "evil.txt" ∈ (cleanupTempDir "audio_chunks_ab12" ⟨true, ["c0.mp3", "evil.txt"]⟩
      ["c0.mp3"]).warnings ∧
    cleanupTempDir "audio_chunks_ab12" ⟨true, ["c0.mp3", "evil.txt"]⟩ ["c0.mp3"] =
      ⟨⟨true, ["evil.txt"]⟩, 1, 1, ["evil.txt"]⟩ := by
  have h := release_never_deletes_unknown "audio_chunks_ab12"
    ⟨true, ["c0.mp3", "evil.txt"]⟩ ["c0.mp3"] "evil.txt" (by decide) (by decide)
  exact ⟨by decide, by decide, h.1, h.2 rfl (by decide), by decide⟩

/-- C7: when zero fragments succeed, no transcript is written, the
summarizer is never invoked, no summary is written, the returned result
reports no transcript path, and cleanup still runs (under the default
options the `finally` block always calls `cleanupTempDir`). -/
theorem zero_success_skips_all_but_cleanup
    (parts : List (Option String)) (summarize : String → Option String)
    (opts : MainOptions) (tf sf : String)
    (hall : ∀ p ∈ parts, p = none) (hkeep : opts.keepTempFiles = false) :
    (mainRun parts summarize opts tf sf).transcriptContent = none ∧
    (mainRun parts summarize opts tf sf).summarizeCalled = false ∧
    (mainRun parts summarize opts tf sf).summaryContent = none ∧
    (mainRun parts summarize opts tf sf).result.transcriptPath = none ∧
    (mainRun parts summarize opts tf sf).result.summaryPath = none ∧
    (mainRun parts summarize opts tf sf).cleanupRan = true := by
  have hfold := transcriptionFold_all_none parts hall
  simp [mainRun, hfold, hkeep, jsTrim]

/-- C7 witness: a run whose three chunks all fail transcription. -/
theorem zero_success_witness :
    (mainRun [none, none, none] (fun _ => some "S") ⟨false, false⟩ "t.txt" "s.txt").transcriptContent = none ∧
    (mainRun [none, none, none] (fun _ => some "S") ⟨false, false⟩ "t.txt" "s.txt").summarizeCalled = false ∧
    (mainRun [none, none, none] (fun _ => some "S") ⟨false, false⟩ "t.txt" "s.txt").summaryContent = none ∧
    (mainRun [none, none, none] (fun _ => some "S") ⟨false, false⟩ "t.txt" "s.txt").result.transcriptPath = none ∧
    (mainRun [none, none, none] (fun _ => some "S") ⟨false, false⟩ "t.txt" "s.txt").result.summaryPath = none ∧
    (mainRun [none, none, none] (fun _ => some "S") ⟨false, false⟩ "t.txt" "s.txt").cleanupRan = true := by
  exact zero_success_skips_all_but_cleanup [none, none, none] (fun _ => some "S")
    ⟨false, false⟩ "t.txt" "s.txt" (by intro p hp; simpa using hp) rfl

/-- C8 (amended): the adapter returns the recognized text exactly for a
terminal `completed` response; a terminal `error` response, any other
terminal status, and a caught transport fault all collapse to the same
`null` return value, with no distinct failed/incomplete statuses; being
a total function of the round-trip outcome models that no fault
propagates to the caller. -/
theorem transcribe_nonsuccess_null (t : AAIResponse) (e : String) :
    (t.status = "completed" → transcribeChunk (.ok t) = some t.text) ∧
    (t.status ≠ "completed" → transcribeChunk (.ok t) = none) ∧
    transcribeChunk (.error e) = none := by
  refine ⟨?_, ?_, rfl⟩
  · intro h
    simp [transcribeChunk, h]
  · intro h
    simp only [transcribeChunk]
    split
    · rfl
    · simp [h]

/-- C8 witness: the three return shapes at concrete responses. -/
theorem transcribe_nonsuccess_witness :
    transcribeChunk (.ok ⟨"completed", "hello"⟩) = some "hello" ∧
    transcribeChunk (.ok ⟨"queued", ""⟩) = none ∧
    transcribeChunk (.error "ECONNRESET") = none := by
  exact ⟨(transcribe_nonsuccess_null ⟨"completed", "hello"⟩ "x").1 rfl,
    (transcribe_nonsuccess_null ⟨"queued", ""⟩ "x").2.1 (by decide),
    (transcribe_nonsuccess_null ⟨"completed", ""⟩ "ECONNRESET").2.2⟩

/-- C8 counterexample: the claim's mapping (`error` → status failed,
other unexpected terminal state → status incomplete) is not realized:
the source returns the same `null` for a terminal `error` response and
for a terminal `processing` response, while the spec's fragment mapping
distinguishes them, so no reading of the return value can recover the
claimed statuses. -/
theorem transcribe_status_collapse :
    transcribeChunk (.ok ⟨"error", ""⟩) = transcribeChunk (.ok ⟨"processing", ""⟩) ∧
    transcribeChunk (.ok ⟨"error", ""⟩) = none ∧
    specTranscribeFragment (.ok ⟨"error", ""⟩) = (FragStatus.failed, "") ∧
    specTranscribeFragment (.ok ⟨"processing", ""⟩) = (FragStatus.incomplete, "") ∧
    specTranscribeFragment (.ok ⟨"error", ""⟩) ≠ specTranscribeFragment (.ok ⟨"processing", ""⟩) := by
  refine ⟨rfl, rfl, rfl, rfl, by decide⟩

/-- C10: `summarizeText` (and identically `summarizeWithFocus`) returns
`null` exactly for empty/whitespace-only input or a caught API error; a
successful response with an empty `content` array, or whose text blocks
join to the empty string, yields a non-null placeholder beginning
"Could not extract summary"; every non-null return is a non-empty
string, and the pipeline then writes the summary file with exactly that
string. -/
theorem summarize_placeholder_behavior (text : String) (p : Option String)
    (api : Except String MsgResponse) (msg : MsgResponse) :
    (summarizeText text api = none ↔ (jsTrim text = "" ∨ ∃ e, api = .error e)) ∧
    summarizeWithFocus text p api = summarizeText text api ∧
    (jsTrim text ≠ "" → msg.content = [] →
      summarizeText text (.ok msg) =
        some "Could not extract summary. No content returned.") ∧
    (jsTrim text ≠ "" → msg.content ≠ [] →
      String.intercalate "\n"
          ((msg.content.filter (fun b => b.type == "text")).map (fun b => b.text)) = "" →
      summarizeText text (.ok msg) =
        some "Could not extract summary. No text blocks found.") ∧
    jsStartsWith "Could not extract summary. No content returned."
      "Could not extract summary" = true ∧
    jsStartsWith "Could not extract summary. No text blocks found."
      "Could not extract summary" = true ∧
    (∀ s, summarizeText text api = some s → s ≠ "") ∧
    (∀ (parts : List (Option String)) (summ : String → Option String)
        (opts : MainOptions) (tf sf : String) (s : String),
      (mainRun parts summ opts tf sf).summarizeCalled = true →
      summ (transcriptionFold parts).1 = some s → s ≠ "" →
      (mainRun parts summ opts tf sf).summaryContent = some s ∧
      (mainRun parts summ opts tf sf).result.summaryPath = some sf) := by
  refine ⟨?_, rfl, ?_, ?_, by decide, by decide, ?_, ?_⟩
  · simp only [summarizeText]
    split
    · rename_i h
      simp only [beq_iff_eq] at h
      simp [h]
    · rename_i h
      simp only [beq_iff_eq] at h
      cases api with
      | error e => simp
      | ok m =>
        simp only [h, false_or]
        constructor
        · intro hc
          split at hc
          · split at hc <;> simp at hc
          · simp at hc
        · rintro ⟨e, he⟩
          cases he
  · intro ht hc
    simp [summarizeText, ht, hc]
  · intro ht hc hj
    have hlen : 0 < msg.content.length := List.length_pos.mpr hc
    simp [summarizeText, ht, hlen, hj]
  · intro s hs
    simp only [summarizeText] at hs
    split at hs
    · simp at hs
    · split at hs
      · simp at hs
      · split at hs
        · split at hs
          · simp only [Option.some.injEq] at hs
            subst hs
            decide
          · rename_i hne
            simp only [Option.some.injEq] at hs
            subst hs
            simpa using hne
        · simp only [Option.some.injEq] at hs
          subst hs
          decide
  · intro parts summ opts tf sf s hcall hsum hne
    simp only [mainRun] at hcall ⊢
    rw [hcall]
    simp only [if_true, hsum]
    have : (s == "") = false := by simpa using hne
    simp [this]

/-- C10 witness: concrete placeholder returns for an empty content array
and for a response with no text blocks, null only for empty input or a
thrown error, and a pipeline run that writes the placeholder summary. -/
theorem summarize_placeholder_witness :
    summarizeText "transcript" (.ok ⟨[]⟩) =
      some "Could not extract summary. No content returned." ∧
    summarizeText "transcript" (.ok ⟨[⟨"tool_use", "x"⟩]⟩) =
      some "Could not extract summary. No text blocks found." ∧
    summarizeText "  \n " (.ok ⟨[]⟩) = none ∧
    summarizeText "transcript" (.error "boom") = none ∧
    (mainRun [some "alpha"] (fun t => summarizeText t (.ok ⟨[]⟩))
        ⟨false, false⟩ "t.txt" "s.txt").summaryContent =
      some "Could not extract summary. No content returned." ∧
    (mainRun [some "alpha"] (fun t => summarizeText t (.ok ⟨[]⟩))
        ⟨false, false⟩ "t.txt" "s.txt").result.summaryPath = some "s.txt" := by
  obtain ⟨h1, -, h3, h4, -, -, -, h8⟩ :=
    summarize_placeholder_behavior "transcript" none (.ok (⟨[]⟩ : MsgResponse)) (⟨[]⟩ : MsgResponse)
  obtain ⟨-, -, -, hb4, -, -, -, -⟩ :=
    summarize_placeholder_behavior "transcript" none (.ok (⟨[]⟩ : MsgResponse))
      (⟨[⟨"tool_use", "x"⟩]⟩ : MsgResponse)
  obtain ⟨hc1, -, -, -, -, -, -, -⟩ :=
    summarize_placeholder_behavior "  \n " none (.ok (⟨[]⟩ : MsgResponse)) (⟨[]⟩ : MsgResponse)
  obtain ⟨hd1, -, -, -, -, -, -, -⟩ :=
    summarize_placeholder_behavior "transcript" none (.error "boom") (⟨[]⟩ : MsgResponse)
  have hp := h8 [some "alpha"] (fun t => summarizeText t (.ok (⟨[]⟩ : MsgResponse)))
    ⟨false, false⟩ "t.txt" "s.txt" "Could not extract summary. No content returned."
    (by decide) (by decide) (by decide)
  exact ⟨h3 (by decide) rfl, hb4 (by decide) (by decide) (by decide),
    hc1.mpr (Or.inl (by decide)), hd1.mpr (Or.inr ⟨"boom", rfl⟩), hp.1, hp.2⟩

/-- C6 (amended): when some chunks fail but the folded transcript is
non-empty, the run continues: the transcript containing only the
successful fragments is written, the summarizer is still invoked
(`skipSummary` unset) and its non-empty result written, and the number
of failures is the chunk count minus the success count — but it is only
logged; the returned value carries just the two paths. -/
theorem partial_failure_continues_and_summarizes
    (parts : List (Option String)) (summ : String → Option String)
    (opts : MainOptions) (tf sf : String)
    (htext : jsTrim (transcriptionFold parts).1 ≠ "")
    (hsucc : (transcriptionFold parts).2 ≠ 0)
    (hskip : opts.skipSummary = false) :
    (mainRun parts summ opts tf sf).transcriptContent =
      some (transcriptionFold parts).1 ∧
    (mainRun parts summ opts tf sf).result.transcriptPath = some tf ∧
    (mainRun parts summ opts tf sf).summarizeCalled = true ∧
    (mainRun parts summ opts tf sf).successCount = (transcriptionFold parts).2 ∧
    (mainRun parts summ opts tf sf).failedCount =
      parts.length - (transcriptionFold parts).2 ∧
    (∀ s, summ (transcriptionFold parts).1 = some s → s ≠ "" →
      (mainRun parts summ opts tf sf).summaryContent = some s ∧
      (mainRun parts summ opts tf sf).result.summaryPath = some sf) := by
  have ht : (jsTrim (transcriptionFold parts).1 == "") = false := by
    simpa using htext
  have hs : ((transcriptionFold parts).2 != 0) = true := by
    simpa using hsucc
  refine ⟨?_, ?_, ?_, rfl, rfl, ?_⟩
  · simp [mainRun, ht]
  · simp [mainRun, ht]
  · simp [mainRun, ht, hs, hskip]
  · intro s hsum hne
    have hne' : (s == "") = false := by simpa using hne
    simp [mainRun, ht, hs, hskip, hsum, hne']

/-- C6 witness: chunk 2 of 3 fails; the transcript holds fragments 1
and 3 only, the summary is still produced, and the logged failure count
is 1. -/
theorem partial_failure_witness :
    (mainRun [some "alpha", none, some "gamma"] (fun _ => some "S")
      ⟨false, false⟩ "t.txt" "s.txt").transcriptContent = some "alpha\n\ngamma\n\n" ∧
    (mainRun [some "alpha", none, some "gamma"] (fun _ => some "S")
      ⟨false, false⟩ "t.txt" "s.txt").result.transcriptPath = some "t.txt" ∧
    (mainRun [some "alpha", none, some "gamma"] (fun _ => some "S")
      ⟨false, false⟩ "t.txt" "s.txt").summarizeCalled = true ∧
    (mainRun [some "alpha", none, some "gamma"] (fun _ => some "S")
      ⟨false, false⟩ "t.txt" "s.txt").failedCount = 1 ∧
    (mainRun [some "alpha", none, some "gamma"] (fun _ => some "S")
      ⟨false, false⟩ "t.txt" "s.txt").summaryContent = some "S" := by
  obtain ⟨h1, h2, h3, -, h5, h6⟩ :=
    partial_failure_continues_and_summarizes
      [some "alpha", none, some "gamma"] (fun _ => some "S")
      ⟨false, false⟩ "t.txt" "s.txt" (by decide) (by decide) rfl
  exact ⟨by rw [h1]; decide, h2, h3, by rw [h5]; decide,
    (h6 "S" rfl (by decide)).1⟩

/-- C6 counterexample: the value `main` returns carries no per-fragment
failure count: a run with zero failures and a run with one failure
return the very same value, so no component of the returned
PipelineResult can report the failure count (it is only logged). -/
theorem pipeline_result_lacks_failure_count :
    (mainRun [some "a", some "b", some "c"] (fun _ => some "S")
        ⟨false, false⟩ "t.txt" "s.txt").result =
      (mainRun [some "a", none, some "c"] (fun _ => some "S")
        ⟨false, false⟩ "t.txt" "s.txt").result ∧
    (mainRun [some "a", some "b", some "c"] (fun _ => some "S")
        ⟨false, false⟩ "t.txt" "s.txt").failedCount = 0 ∧
    (mainRun [some "a", none, some "c"] (fun _ => some "S")
        ⟨false, false⟩ "t.txt" "s.txt").failedCount = 1 := by
  decide

/-- C3: an oversized slice (byte size at or above the limit) makes the
splitter retry at the same start offset with length
`Math.floor(len * 0.9)`; the shrink is strictly decreasing and is
exactly the rational floor of `len * 0.9`; every chunk in a returned
result list is strictly under `MAX_FILE_SIZE_BYTES`; and when the shrunk
length falls to or below the 1-second floor the inner loop aborts and
the entire split returns the failure value `{ chunks: [] }`. -/
theorem splitter_shrink_retry_size_invariant :
    (∀ (slice : ℤ → ℤ → Option ℕ) (total start : ℤ) (f : ℕ) (len : ℤ) (size : ℕ),
      1 < len →
      ¬ mathMin (start + len) total - start ≤ 0 →
      slice start (mathMin (start + len) total - start) = some size →
      MAX_FILE_SIZE_BYTES ≤ size →
      (1 < shrinkLength len →
        sliceAttempts slice total start (f + 1) len =
          sliceAttempts slice total start f (shrinkLength len)) ∧
      (shrinkLength len ≤ 1 →
        sliceAttempts slice total start (f + 1) len = some .aborted)) ∧
    (∀ len : ℤ, 0 < len → shrinkLength len < len) ∧
    (∀ len : ℤ, shrinkLength len = ⌊(len : ℚ) * safetyFactor⌋) ∧
    (∀ (slice : ℤ → ℤ → Option ℕ) (total target : ℤ) (fuel : ℕ)
        (cs : List ChunkArtifact) (c : ChunkArtifact),
      splitAudioRun slice total target fuel = some cs → c ∈ cs →
      c.byteSize < MAX_FILE_SIZE_BYTES) ∧
    (∀ (slice : ℤ → ℤ → Option ℕ) (total target : ℤ) (f : ℕ) (start : ℤ)
        (i : ℕ) (acc : List ChunkArtifact),
      start < total →
      sliceAttempts slice total start (f + 1) target = some .aborted →
      splitLoop slice total target (f + 1) start i acc = some []) := by
  refine ⟨?_, ?_, shrinkLength_eq_floor, ?_, ?_⟩
  · intro slice total start f len size hlen hdur hslice hsize
    have hnot : ¬ size < MAX_FILE_SIZE_BYTES := by omega
    constructor
    · intro hgt
      rw [sliceAttempts, if_pos hlen, if_neg hdur]
      simp only [hslice, if_neg hnot, if_neg (not_le.mpr hgt)]
    · intro hle
      rw [sliceAttempts, if_pos hlen, if_neg hdur]
      simp only [hslice, if_neg hnot, if_pos hle]
  · intro len hpos
    rw [shrinkLength]
    omega
  · intro slice total target fuel cs c h hc
    exact splitLoop_size_invariant slice total target fuel 0 0 [] cs h
      (by simp) c hc
  · intro slice total target f start i acc hlt habort
    rw [splitLoop, if_pos hlt, habort]

/-- C3 witness: with a 600 s target and an oracle whose slices over
500 s are oversized, the first attempt shrinks 600 → 540 and retries at
the same offset; the shrink is strictly monotone; every chunk of the
resulting run is under the limit; and an always-oversized oracle drives
the length to the floor and the whole split returns the failure value. -/
theorem splitter_shrink_retry_witness :
    sliceAttempts (fun _ d => some (if 500 < d then MAX_FILE_SIZE_BYTES else 1000)) 2000 0 6 600 =
      sliceAttempts (fun _ d => some (if 500 < d then MAX_FILE_SIZE_BYTES else 1000)) 2000 0 5 540 ∧
    (540 : ℤ) < 600 ∧
    shrinkLength 600 = 540 ∧
    splitAudioRun (fun _ d => some (if 500 < d then MAX_FILE_SIZE_BYTES else 1000)) 2000 600 20 =
      some [⟨0, 0, 486, 1000⟩, ⟨1, 486, 972, 1000⟩, ⟨2, 972, 1458, 1000⟩,
        ⟨3, 1458, 1944, 1000⟩, ⟨4, 1944, 2000, 1000⟩] ∧
    (⟨0, 0, 486, 1000⟩ : ChunkArtifact).byteSize < MAX_FILE_SIZE_BYTES ∧
    sliceAttempts (fun _ _ => some MAX_FILE_SIZE_BYTES) 2000 0 3 2 = some .aborted ∧
    splitLoop (fun _ _ => some MAX_FILE_SIZE_BYTES) 2000 600 60 0 0 [] = some [] ∧
    splitAudioRun (fun _ _ => some MAX_FILE_SIZE_BYTES) 2000 600 60 = some [] := by
  refine ⟨?_, ?_, by decide, by decide, ?_, ?_, ?_, by decide⟩
  · exact (splitter_shrink_retry_size_invariant.1
      (fun _ d => some (if 500 < d then MAX_FILE_SIZE_BYTES else 1000)) 2000 0 5 600
      MAX_FILE_SIZE_BYTES (by decide) (by decide) (by decide) (by decide)).1 (by decide)
  · exact splitter_shrink_retry_size_invariant.2.1 600 (by decide)
  · exact splitter_shrink_retry_size_invariant.2.2.2.1
      (fun _ d => some (if 500 < d then MAX_FILE_SIZE_BYTES else 1000)) 2000 600 20
      [⟨0, 0, 486, 1000⟩, ⟨1, 486, 972, 1000⟩, ⟨2, 972, 1458, 1000⟩,
        ⟨3, 1458, 1944, 1000⟩, ⟨4, 1944, 2000, 1000⟩] ⟨0, 0, 486, 1000⟩
      (by decide) (by decide)
  · exact (splitter_shrink_retry_size_invariant.1
      (fun _ _ => some MAX_FILE_SIZE_BYTES) 2000 0 2 2
      MAX_FILE_SIZE_BYTES (by decide) (by decide) (by decide) (by decide)).2 (by decide)
  · exact splitter_shrink_retry_size_invariant.2.2.2.2
      (fun _ _ => some MAX_FILE_SIZE_BYTES) 2000 600 59 0 0 [] (by decide) (by decide)

theorem splitLoop_tiles_aux (slice : ℤ → ℤ → Option ℕ) (total target : ℤ)
    (htar : 1 < target)
    (hs : ∀ s d : ℤ, 0 < d → ∃ n, slice s d = some n ∧ n < MAX_FILE_SIZE_BYTES) :
    ∀ (fuel : ℕ) (start : ℤ) (i : ℕ) (acc : List ChunkArtifact),
      start ≤ total → total - start + target ≤ target * (fuel : ℤ) →
      ∃ cs, splitLoop slice total target fuel start i acc = some (acc ++ cs) ∧
        tilesB cs start total i = true := by
  intro fuel
  induction fuel with
  | zero =>
    intro start i acc hle hfuel
    exfalso
    push_cast at hfuel
    simp only [mul_zero] at hfuel
    omega
  | succ f ih =>
    intro start i acc hle hfuel
    have hexp : target * ((f + 1 : ℕ) : ℤ) = target * (f : ℤ) + target := by
      push_cast
      ring
    rw [hexp] at hfuel
    by_cases hlt : start < total
    · have hdur : 0 < mathMin (start + target) total - start := by
        rw [mathMin]
        split <;> omega
      obtain ⟨n, hsl, hn⟩ := hs start _ hdur
      have hinner : sliceAttempts slice total start (f + 1) target =
          some (.accepted (mathMin (start + target) total) n target) := by
        rw [sliceAttempts, if_pos htar, if_neg (not_le.mpr hdur)]
        simp only [hsl, if_pos hn]
      have he_le : mathMin (start + target) total ≤ total := by
        rw [mathMin]
        split <;> omega
      have hstep : total - mathMin (start + target) total + target ≤ target * (f : ℤ) := by
        rw [mathMin]
        split
        · linarith
        · rcases Nat.eq_zero_or_pos f with hf | hf
          · exfalso
            subst hf
            push_cast at hfuel
            simp only [mul_zero] at hfuel
            omega
          · have h1 : (1 : ℤ) ≤ (f : ℤ) := by exact_mod_cast hf
            have h2 : target * 1 ≤ target * (f : ℤ) :=
              mul_le_mul_of_nonneg_left h1 (by omega)
            linarith
      obtain ⟨cs', hrec, htiles⟩ := ih (mathMin (start + target) total) (i + 1)
        (acc ++ [⟨i, start, mathMin (start + target) total, n⟩]) he_le hstep
      have hstep1 : splitLoop slice total target (f + 1) start i acc =
          splitLoop slice total target f (mathMin (start + target) total) (i + 1)
            (acc ++ [⟨i, start, mathMin (start + target) total, n⟩]) := by
        rw [splitLoop, if_pos hlt, hinner]
      refine ⟨⟨i, start, mathMin (start + target) total, n⟩ :: cs', ?_, ?_⟩
      · rw [hstep1, hrec]
        simp
      · have h1 : start < mathMin (start + target) total := by omega
        simp [tilesB, h1, he_le, htiles]
    · have heq : start = total := le_antisymm hle (not_lt.mp hlt)
      refine ⟨[], ?_, ?_⟩
      · rw [splitLoop, if_neg hlt]
        simp
      · simp [tilesB, heq]

/-- C2 (amended): for every positive total duration and every target
chunk length strictly above the splitter's 1-second floor, when every
slice attempt succeeds with a byte size under the limit, the splitter
(given enough fuel for its terminating loop) returns a chunk list whose
spans exactly tile `[0, totalDuration)` with no gap or overlap and whose
sequence indices are exactly `0..N-1`. -/
theorem splitter_tiles_above_one_second_target
    (slice : ℤ → ℤ → Option ℕ) (total target : ℤ) (fuel : ℕ)
    (htot : 0 < total) (htar : 1 < target)
    (hs : ∀ s d : ℤ, 0 < d → ∃ n, slice s d = some n ∧ n < MAX_FILE_SIZE_BYTES)
    (hfuel : total + target ≤ target * (fuel : ℤ)) :
    ∃ cs, splitAudioRun slice total target fuel = some cs ∧
      tilesB cs 0 total 0 = true := by
  obtain ⟨cs, h1, h2⟩ := splitLoop_tiles_aux slice total target htar hs fuel 0 0 []
    (by omega) (by simpa using hfuel)
  exact ⟨cs, by simpa [splitAudioRun] using h1, h2⟩

/-- C2 witness: the claim's concrete scenario — 1500 s of audio at a
600 s target with all slices under the size limit yields exactly the
three chunks `[0,600)`, `[600,1200)`, `[1200,1500)`, which tile
`[0,1500)`. -/
theorem splitter_tiles_witness :
    (∃ cs, splitAudioRun (fun _ _ => some 1000000) 1500 600 10 = some cs ∧
      tilesB cs 0 1500 0 = true) ∧
    splitAudioRun (fun _ _ => some 1000000) 1500 600 10 =
      some [⟨0, 0, 600, 1000000⟩, ⟨1, 600, 1200, 1000000⟩, ⟨2, 1200, 1500, 1000000⟩] ∧
    tilesB [⟨0, 0, 600, 1000000⟩, ⟨1, 600, 1200, 1000000⟩,
      ⟨2, 1200, 1500, 1000000⟩] 0 1500 0 = true := by
  refine ⟨splitter_tiles_above_one_second_target (fun _ _ => some 1000000) 1500 600 10
    (by decide) (by decide) (fun s d _ => ⟨1000000, rfl, by decide⟩) (by decide),
    by decide, by decide⟩

/-- C2 counterexample: `targetChunkSeconds = 1` is positive, the total
duration 5 is positive, and every slice fits the limit, yet the inner
loop's strict `currentChunkLength > 1` guard never admits an attempt:
the split returns the failure value `{ chunks: [] }`, whose empty chunk
list does not tile `[0, 5)` — refuting the claim for every positive
target. -/
theorem splitter_positive_target_not_tiling :
    (0 : ℤ) < 5 ∧ (0 : ℤ) < 1 ∧
    (∀ s d : ℤ, (fun _ _ => (some 1000 : Option ℕ)) s d = some 1000 ∧
      1000 < MAX_FILE_SIZE_BYTES) ∧
    splitAudioRun (fun _ _ => some 1000) 5 1 10 = some [] ∧
    tilesB [] 0 5 0 = false := by
  exact ⟨by decide, by decide, fun s d => ⟨rfl, by decide⟩, by decide, by decide⟩

/-- C1 (amended): a shrink does not persist across chunk boundaries:
`currentChunkLength` is re-initialized to `chunkLengthSeconds` at the
start of every outer iteration (line 147), so after a chunk is accepted
— at whatever possibly-shrunk length `l` — the next chunk's first slice
attempt is made at the full target length: if that attempt fits, the
next accepted chunk spans `min(start + target, total) - start` seconds,
independent of `l`. -/
theorem chunkLength_reset_per_outer_iteration
    (slice : ℤ → ℤ → Option ℕ) (total target : ℤ) (f : ℕ) (start : ℤ)
    (i : ℕ) (acc : List ChunkArtifact) (e : ℤ) (n : ℕ) (l : ℤ) (m : ℕ)
    (hacc : sliceAttempts slice total start (f + 1) target = some (.accepted e n l))
    (he : e < total) (htar : 1 < target)
    (hm : slice e (mathMin (e + target) total - e) = some m)
    (hmfit : m < MAX_FILE_SIZE_BYTES) (hf : 1 ≤ f) :
    splitLoop slice total target (f + 1) start i acc =
      splitLoop slice total target (f - 1) (mathMin (e + target) total) (i + 2)
        (acc ++ [⟨i, start, e, n⟩, ⟨i + 1, e, mathMin (e + target) total, m⟩]) := by
  obtain ⟨-, hse, -⟩ :=
    sliceAttempts_accepted_bounds slice total start (f + 1) target e n l hacc
  have hst : start < total := lt_trans hse he
  obtain ⟨f', rfl⟩ : ∃ f', f = f' + 1 := ⟨f - 1, by omega⟩
  have hdur2 : 0 < mathMin (e + target) total - e := by
    rw [mathMin]
    split <;> omega
  have hinner2 : sliceAttempts slice total e (f' + 1) target =
      some (.accepted (mathMin (e + target) total) m target) := by
    rw [sliceAttempts, if_pos htar, if_neg (not_le.mpr hdur2)]
    simp only [hm, if_pos hmfit]
  have hstep1 : splitLoop slice total target (f' + 1 + 1) start i acc =
      splitLoop slice total target (f' + 1) e (i + 1) (acc ++ [⟨i, start, e, n⟩]) := by
    rw [splitLoop, if_pos hst, hacc]
  have hstep2 : splitLoop slice total target (f' + 1) e (i + 1) (acc ++ [⟨i, start, e, n⟩]) =
      splitLoop slice total target f' (mathMin (e + target) total) (i + 1 + 1)
        ((acc ++ [⟨i, start, e, n⟩]) ++ [⟨i + 1, e, mathMin (e + target) total, m⟩]) := by
    rw [splitLoop, if_pos he, hinner2]
  rw [hstep1, hstep2]
  simp [List.append_assoc]

/-- C1 witness: a source whose slices are oversized only at offset 0
and length ≥ 600.  Chunk 0 is accepted at the shrunk length 540, chunk
1's first attempt is made at the full 600 s target and — fitting — is
accepted with a 600 s span, which the claimed persistence (span at most
540 s) would make impossible. -/
theorem chunkLength_reset_witness :
    splitLoop (fun s d => some (if s = 0 ∧ 600 ≤ d then MAX_FILE_SIZE_BYTES else 1000))
        1200 600 20 0 0 [] =
      splitLoop (fun s d => some (if s = 0 ∧ 600 ≤ d then MAX_FILE_SIZE_BYTES else 1000))
        1200 600 18 1140 2 [⟨0, 0, 540, 1000⟩, ⟨1, 540, 1140, 1000⟩] ∧
    (540 : ℤ) ≠ 600 ∧ (1140 : ℤ) - 540 = 600 := by
  refine ⟨?_, by decide, by decide⟩
  have h := chunkLength_reset_per_outer_iteration
    (fun s d => some (if s = 0 ∧ 600 ≤ d then MAX_FILE_SIZE_BYTES else 1000))
    1200 600 19 0 0 [] 540 1000 540 1000
    (by decide) (by decide) (by decide) (by decide) (by decide) (by omega)
  simpa [mathMin] using h

/-- C1 counterexample: on the same oracle, the source's splitter
(resetting to the 600 s target each outer iteration) produces chunks
`[0,540), [540,1140), [1140,1200)`, while the spec's persisting
splitter produces `[0,540), [540,1080), [1080,1200)`: chunk 0 is
accepted at the shrunk length 540, yet the source's chunk 1 spans
600 s, impossible had its first attempt reused the shrunk length (a
chunk's span never exceeds the attempted length). -/
theorem shrink_persistence_counterexample :
    splitAudioRun (fun s d => some (if s = 0 ∧ 600 ≤ d then MAX_FILE_SIZE_BYTES else 1000))
        1200 600 20 =
      some [⟨0, 0, 540, 1000⟩, ⟨1, 540, 1140, 1000⟩, ⟨2, 1140, 1200, 1000⟩] ∧
    splitAudioSpecPersist (fun s d => some (if s = 0 ∧ 600 ≤ d then MAX_FILE_SIZE_BYTES else 1000))
        1200 600 20 =
      some [⟨0, 0, 540, 1000⟩, ⟨1, 540, 1080, 1000⟩, ⟨2, 1080, 1200, 1000⟩] ∧
    sliceAttempts (fun s d => some (if s = 0 ∧ 600 ≤ d then MAX_FILE_SIZE_BYTES else 1000))
        1200 0 20 600 = some (.accepted 540 1000 540) ∧
    ¬ ((1140 : ℤ) - 540 ≤ 540) := by
  exact ⟨by decide, by decide, by decide, by decide⟩
